import Mathlib

/-!
Shallow embedding of the COT-report column-heuristic normalizer in
`src/main.py` (class `COTDataManager` and `COTPlotter`): cell values,
tables (column-major, as pandas DataFrames are), the two-pass column
resolver, the net-position deriver, consolidation by contract, and
`get_available_contracts`.
-/

/-- A cell value of a table.  `num` stands for values that pandas
`to_numeric` parses to a number (already-numeric cells and numeric
strings), `str` for text it cannot parse, `nan` for missing values. -/
inductive Value : Type
  | num (n : Int)
  | str (s : String)
  | nan
  deriving DecidableEq, Repr

/-- Embeds `pd.to_numeric(x, errors='coerce').fillna(0)` on one cell:
parsable values keep their number, anything else becomes 0. -/
def toNumeric : Value → Int
  | .num n => n
  | .str _ => 0
  | .nan => 0

/-- Rank used to totalise comparison across value kinds. -/
def valueRank : Value → Nat
  | .num _ => 0
  | .str _ => 1
  | .nan => 2

/-- Lexicographic comparison of character lists by code point, as
Python compares strings. -/
def charsLe : List Char → List Char → Bool
  | [], _ => true
  | _ :: _, [] => false
  | a :: as, b :: bs =>
    if a.toNat < b.toNat then true
    else if b.toNat < a.toNat then false
    else charsLe as bs

/-- Total comparison on cell values: numbers by integer order, strings
lexicographically (as pandas compares homogeneous columns), distinct
kinds by rank. -/
def valueLe (a b : Value) : Bool :=
  match a, b with
  | .num x, .num y => decide (x ≤ y)
  | .str x, .str y => charsLe x.toList y.toList
  | .nan, .nan => true
  | a, b => decide (valueRank a < valueRank b)

/-- Holds when `pat` occurs at the head of `l`. -/
def leadEq : List Char → List Char → Bool
  | [], _ => true
  | _ :: _, [] => false
  | a :: as, b :: bs => a == b && leadEq as bs

/-- Holds when `pat` occurs somewhere inside `l`. -/
def hasSub (pat : List Char) : List Char → Bool
  | [] => leadEq pat []
  | c :: tl => leadEq pat (c :: tl) || hasSub pat tl

/-- Embeds Python `pat in col.lower()` (all patterns in the source are
lowercase literals). -/
def containsLower (col : String) (pat : String) : Bool :=
  hasSub pat.toList (col.toList.map Char.toLower)

/-- The six position-column roles resolved in
`COTPlotter.plot_trader_positions` (`main.py` lines 318-323). -/
structure Resolved : Type where
  comm_long : Option String
  comm_short : Option String
  noncomm_long : Option String
  noncomm_short : Option String
  small_long : Option String
  small_short : Option String
  deriving DecidableEq, Repr

def emptyR : Resolved := ⟨none, none, none, none, none, none⟩

/-- One iteration of the first resolver pass (`main.py` lines 326-346):
"Positions" columns, assignments unguarded. -/
def pass1Step (r : Resolved) (col : String) : Resolved :=
  if containsLower col "positions" then
    if containsLower col "commercial" && !containsLower col "noncommercial" then
      if containsLower col "long" && containsLower col "(all)" then
        { r with comm_long := some col }
      else if containsLower col "short" && containsLower col "(all)" then
        { r with comm_short := some col }
      else r
    else if containsLower col "noncommercial" && !containsLower col "spreading" then
      if containsLower col "long" && containsLower col "(all)" then
        { r with noncomm_long := some col }
      else if containsLower col "short" && containsLower col "(all)" then
        { r with noncomm_short := some col }
      else r
    else if containsLower col "nonreportable" then
      if containsLower col "long" && containsLower col "(all)" then
        { r with small_long := some col }
      else if containsLower col "short" && containsLower col "(all)" then
        { r with small_short := some col }
      else r
    else r
  else r

/-- One iteration of the second resolver pass (`main.py` lines 350-370):
"Traders" columns, each assignment guarded by the role being empty. -/
def pass2Step (r : Resolved) (col : String) : Resolved :=
  if containsLower col "trader" then
    if containsLower col "commercial" && !containsLower col "noncommercial" then
      if containsLower col "long" && containsLower col "(all)" && r.comm_long.isNone then
        { r with comm_long := some col }
      else if containsLower col "short" && containsLower col "(all)" && r.comm_short.isNone then
        { r with comm_short := some col }
      else r
    else if containsLower col "noncommercial" && !containsLower col "spreading" then
      if containsLower col "long" && containsLower col "(all)" && r.noncomm_long.isNone then
        { r with noncomm_long := some col }
      else if containsLower col "short" && containsLower col "(all)" && r.noncomm_short.isNone then
        { r with noncomm_short := some col }
      else r
    else if containsLower col "nonreportable" then
      if containsLower col "long" && containsLower col "(all)" && r.small_long.isNone then
        { r with small_long := some col }
      else if containsLower col "short" && containsLower col "(all)" && r.small_short.isNone then
        { r with small_short := some col }
      else r
    else r
  else r

/-- The full resolver (`main.py` lines 325-370): Pass 1 over all column
names, then Pass 2 — gated only on the Noncommercial pair being
incomplete (`if not noncomm_long or not noncomm_short`, line 349). -/
def resolveColumns (cols : List String) : Resolved :=
  let r1 := cols.foldl pass1Step emptyR
  if r1.noncomm_long.isNone || r1.noncomm_short.isNone then
    cols.foldl pass2Step r1
  else r1

/-- A DataFrame, column-major as pandas stores it: ordered named columns
of cell values. -/
structure Table : Type where
  cols : List (String × List Value)
  deriving DecidableEq, Repr

/-- Embeds `df[c]`: the values of the first column named `c` ([] when absent). -/
def getColVals (t : Table) (c : String) : List Value :=
  match t.cols.find? (fun p => p.1 == c) with
  | some p => p.2
  | none => []

/-- Embeds `df.columns`. -/
def colNames (t : Table) : List String := t.cols.map Prod.fst

/-- Number of rows (length of the first column). -/
def Table.nrows (t : Table) : Nat :=
  match t.cols with
  | [] => 0
  | p :: _ => p.2.length

/-- Embeds `df.empty`: no columns, or no rows. -/
def Table.isEmpty (t : Table) : Bool :=
  t.cols.all (fun p => p.2.isEmpty)

/-- Keep the entries of `l` whose positional mask bit is true. -/
def applyMask : List Value → List Bool → List Value
  | v :: vs, b :: bs => if b then v :: applyMask vs bs else applyMask vs bs
  | _, _ => []

/-- Boolean-mask row selection, `df[mask]`. -/
def maskFilter (t : Table) (m : List Bool) : Table :=
  ⟨t.cols.map (fun p => (p.1, applyMask p.2 m))⟩

/-- Embeds `df[df[c] == v]`. -/
def filterEq (t : Table) (c : String) (v : Value) : Table :=
  maskFilter t ((getColVals t c).map (fun x => x == v))

/-- Row selection by positions (used to reorder rows when sorting). -/
def gather (t : Table) (idx : List Nat) : Table :=
  ⟨t.cols.map (fun p => (p.1, idx.map (fun i => p.2.getD i Value.nan)))⟩

/-- Lifts `valueLe` to a decidable relation, for sorting. -/
def valueLeP (a b : Value) : Prop := valueLe a b = true

instance : DecidableRel valueLeP :=
  fun a b => inferInstanceAs (Decidable (valueLe a b = true))

/-- Comparison of (row position, key value) pairs by key. -/
def pairLeP (p q : Nat × Value) : Prop := valueLeP p.2 q.2

instance : DecidableRel pairLeP :=
  fun p q => inferInstanceAs (Decidable (valueLe p.2 q.2 = true))

/-- The permutation of row positions that sorts key column values
ascending. -/
def sortPermByKey (ks : List Value) : List Nat :=
  (ks.enum.insertionSort pairLeP).map Prod.fst

/-- Embeds `df.sort_values(c)`. -/
def sortByCol (t : Table) (c : String) : Table :=
  gather t (sortPermByKey (getColVals t c))

/-- Embeds `df[c] = vals`: overwrite every column named `c`, or append a new
one. -/
def setCol (t : Table) (c : String) (vals : List Value) : Table :=
  if t.cols.any (fun p => p.1 == c) then
    ⟨t.cols.map (fun p => if p.1 == c then (c, vals) else p)⟩
  else ⟨t.cols ++ [(c, vals)]⟩

/-- Embeds `pd.concat([a, b])`: union of columns in first-seen order, missing
cells filled with NaN. -/
def concatTables (a b : Table) : Table :=
  let names := colNames a ++ (colNames b).filter (fun c => !(colNames a).contains c)
  ⟨names.map (fun c =>
    let av := match a.cols.find? (fun p => p.1 == c) with
      | some p => p.2
      | none => List.replicate a.nrows Value.nan
    let bv := match b.cols.find? (fun p => p.1 == c) with
      | some p => p.2
      | none => List.replicate b.nrows Value.nan
    (c, av ++ bv))⟩

/-- Helper of `uniqueVals`, carrying the values already emitted. -/
def uniqueAux (seen : List Value) : List Value → List Value
  | [] => []
  | v :: vs =>
    if seen.contains v then uniqueAux seen vs
    else v :: uniqueAux (seen ++ [v]) vs

/-- Embeds `series.unique()`: distinct values, first-occurrence order. -/
def uniqueVals (l : List Value) : List Value := uniqueAux [] l

/-- Row mask of `df.drop_duplicates(subset=[key], keep='last')`: keep a
row iff its key value does not recur later. -/
def dropDupLastMask : List Value → List Bool
  | [] => []
  | v :: vs => (!vs.contains v) :: dropDupLastMask vs

/-- Embeds Python `sorted(l)` on values. -/
def sortVals (l : List Value) : List Value := l.insertionSort valueLeP

/-- One category of the net-position derivation (`main.py` lines
376-392): when both columns of the pair resolved, coerce each to
numeric in place, add the derived net column, and record a plot series
(label, column, color); otherwise leave the table untouched. -/
def deriveStep (t : Table) (lo so : Option String)
    (netName label color : String) :
    Table × Option (String × String × String) :=
  match lo, so with
  | some l, some s =>
    let t1 := setCol t l ((getColVals t l).map (fun v => Value.num (toNumeric v)))
    let t2 := setCol t1 s ((getColVals t1 s).map (fun v => Value.num (toNumeric v)))
    let net := ((getColVals t2 l).zip (getColVals t2 s)).map
      (fun p => Value.num (toNumeric p.1 - toNumeric p.2))
    (setCol t2 netName net, some (label, netName, color))
  | _, _ => (t, none)

/-- The three derivation blocks of `main.py` lines 376-392, in source
order, threading the working table; the second component is
`trader_data`. -/
def deriveAll (t : Table) (r : Resolved) :
    Table × List (String × String × String) :=
  let s1 := deriveStep t r.comm_long r.comm_short
    "Commercial_Net" "Large Commercials" "red"
  let s2 := deriveStep s1.1 r.noncomm_long r.noncomm_short
    "NonCommercial_Net" "Large Speculators" "blue"
  let s3 := deriveStep s2.1 r.small_long r.small_short
    "NonReportable_Net" "Small Speculators" "yellow"
  (s3.1, s1.2.toList ++ s2.2.toList ++ s3.2.toList)

/-- Embeds the date-column lookup (name containing both "date" and "yyyy") of
`plot_trader_positions` (`main.py` lines 268-272). -/
def findDateCol (cols : List String) : Option String :=
  cols.find? (fun c => containsLower c "date" && containsLower c "yyyy")

/-- Embeds the identifier-column lookup (name containing "market" or
"contract", `main.py` lines
278-282, identical at lines 95-98 and 230-231). -/
def findContractCol (cols : List String) : Option String :=
  cols.find? (fun c => containsLower c "market" || containsLower c "contract")

/-- Embeds the loose date-column lookup (name containing "date") used by
consolidation
(`main.py` line 113). -/
def findDateColSimple (cols : List String) : Option String :=
  cols.find? (fun c => containsLower c "date")

/-- Embeds `plot_df[plot_df[date_col] >= pd.to_datetime(start_date)]`
(`main.py` lines 303-304); no filter when no bound. -/
def startFilter (t : Table) (dateCol : String) : Option Value → Table
  | some sv => maskFilter t ((getColVals t dateCol).map (fun d => valueLe sv d))
  | none => t

/-- Embeds `plot_df[plot_df[date_col] <= pd.to_datetime(end_date)]`
(`main.py` lines 305-306); no filter when no bound. -/
def endFilter (t : Table) (dateCol : String) : Option Value → Table
  | some ev => maskFilter t ((getColVals t dateCol).map (fun d => valueLe d ev))
  | none => t

/-- Outcome of `COTPlotter.plot_trader_positions`: the two raised
`ValueError`s, the three print-and-return exits, or a rendered chart
carrying `trader_data` and the final working table. -/
inductive PlotResult : Type
  | errNoDate
  | errNoContract
  | noDataForContract (contract : String)
  | notSupported (reportType : String)
  | noPositionCols (availableCols : List String)
  | plotted (traderData : List (String × String × String)) (t : Table)
  deriving DecidableEq, Repr

/-- Embeds `COTPlotter.plot_trader_positions` (`main.py` lines 241-467) up to
chart rendering.  `defStart`/`defEnd` stand for the
`datetime.now()`-based five-year default range computed at lines
298-301 when neither bound is passed. -/
def plot_trader_positions (df : Table) (contract_name : String)
    (report_type : String) (start_date end_date : Option Value)
    (defStart defEnd : Value) : PlotResult :=
  match findDateCol (colNames df) with
  | none => .errNoDate
  | some dateCol =>
    match findContractCol (colNames df) with
    | none => .errNoContract
    | some contractCol =>
      let plot_df := filterEq df contractCol (Value.str contract_name)
      if plot_df.isEmpty then .noDataForContract contract_name
      else
        let bounds : Option Value × Option Value :=
          match start_date, end_date with
          | none, none => (some defStart, some defEnd)
          | s, e => (s, e)
        let pd1 := startFilter plot_df dateCol bounds.1
        let pd2 := endFilter pd1 dateCol bounds.2
        let pd3 := sortByCol pd2 dateCol
        if containsLower report_type "legacy" then
          let res := deriveAll pd3 (resolveColumns (colNames pd3))
          if res.2.isEmpty then .noPositionCols (colNames pd3)
          else .plotted res.2 res.1
        else .notSupported report_type

/-- The merge arm of `COTDataManager.consolidate_by_contract`
(`main.py` lines 116-119): concatenate, drop duplicate dates keeping
the last, sort by date. -/
def mergeStep (existing incoming : Table) (dateCol : String) : Table :=
  let m := concatTables existing incoming
  let m2 := maskFilter m (dropDupLastMask (getColVals m dateCol))
  sortByCol m2 dateCol

/-- Insertion-ordered dict update used for `consolidated[contract]`. -/
def updateAt (l : List (Value × Table)) (k : Value) (v : Table) :
    List (Value × Table) :=
  l.map (fun p => if p.1 == k then (k, v) else p)

/-- Dict lookup on the consolidated map. -/
def lookupAt (l : List (Value × Table)) (k : Value) : Option Table :=
  (l.find? (fun p => p.1 == k)).map Prod.snd

/-- Inner loop of `consolidate_by_contract` over the distinct contracts
of one report table (`main.py` lines 107-121).  The `Except` models the
uncaught `IndexError` of line 113 when a merged table has no date
column; the `List String` accumulates printed warnings. -/
def consolidateContracts (df : Table) (contractCol : String) :
    List Value → List String × List (Value × Table) →
    Except String (List String × List (Value × Table))
  | [], st => .ok st
  | contract :: rest, (log, cons) =>
    let contract_data := filterEq df contractCol contract
    match lookupAt cons contract with
    | some existing =>
      match findDateColSimple (colNames contract_data) with
      | none => .error "IndexError: list index out of range"
      | some dcol =>
        consolidateContracts df contractCol rest
          (log, updateAt cons contract (mergeStep existing contract_data dcol))
    | none =>
      consolidateContracts df contractCol rest
        (log, cons ++ [(contract, contract_data)])

/-- Outer loop of `COTDataManager.consolidate_by_contract` (`main.py`
lines 77-124) over `(report_type, df)` pairs in iteration order. -/
def consolidateAux :
    List (String × Table) → List String × List (Value × Table) →
    Except String (List String × List (Value × Table))
  | [], st => .ok st
  | (report_type, df) :: rest, (log, cons) =>
    if df.isEmpty then consolidateAux rest (log, cons)
    else
      match findContractCol (colNames df) with
      | none =>
        consolidateAux rest
          (log ++ ["Could not find contract column in " ++ report_type], cons)
      | some contractCol =>
        match consolidateContracts df contractCol
            (uniqueVals (getColVals df contractCol)) (log, cons) with
        | .error e => .error e
        | .ok st => consolidateAux rest st

/-- Embeds `COTDataManager.consolidate_by_contract`: warnings printed and the
contract → table dict, or the uncaught exception. -/
def consolidate_by_contract (dfs : List (String × Table)) :
    Except String (List String × List (Value × Table)) :=
  consolidateAux dfs ([], [])

/-- Embeds `COTDataManager.get_available_contracts` (`main.py` lines 214-234):
[] when the report type is absent, its table empty, or no identifier
column exists; otherwise the sorted distinct values of the first
identifier column. -/
def get_available_contracts (dataframes : List (String × Table))
    (report_type : String) : List Value :=
  match (dataframes.find? (fun p => p.1 == report_type)).map Prod.snd with
  | none => []
  | some df =>
    if df.isEmpty then []
    else
      match findContractCol (colNames df) with
      | some c => sortVals (uniqueVals (getColVals df c))
      | none => []

/-! ### Resolver lemmas -/

/-- The Pass-1 rule for the Commercial-Long role, as one predicate. -/
def matchesCommLongP1 (c : String) : Bool :=
  containsLower c "positions" &&
    (containsLower c "commercial" && !containsLower c "noncommercial") &&
    (containsLower c "long" && containsLower c "(all)")

/-- The Pass-1 rule for the Noncommercial-Long role. -/
def matchesNoncommLongP1 (c : String) : Bool :=
  containsLower c "positions" &&
    (containsLower c "noncommercial" && !containsLower c "spreading") &&
    (containsLower c "long" && containsLower c "(all)")

/-- The Pass-2 rule for the Commercial-Long role. -/
def matchesCommLongP2 (c : String) : Bool :=
  containsLower c "trader" &&
    (containsLower c "commercial" && !containsLower c "noncommercial") &&
    (containsLower c "long" && containsLower c "(all)")

lemma pass1Step_comm_long_of_match {c : String} (r : Resolved)
    (h : matchesCommLongP1 c = true) :
    pass1Step r c = { r with comm_long := some c } := by
  simp only [matchesCommLongP1, Bool.and_eq_true] at h
  obtain ⟨⟨h1, h2⟩, h3⟩ := h
  simp [pass1Step, h1, h2, h3]

lemma pass1Step_comm_long_of_not {c : String} (r : Resolved)
    (h : matchesCommLongP1 c = false) :
    (pass1Step r c).comm_long = r.comm_long := by
  simp only [matchesCommLongP1] at h
  unfold pass1Step
  split_ifs <;> simp_all

lemma pass1Step_noncomm_long_of_not {c : String} (r : Resolved)
    (h : matchesNoncommLongP1 c = false) :
    (pass1Step r c).noncomm_long = r.noncomm_long := by
  simp only [matchesNoncommLongP1] at h
  unfold pass1Step
  split_ifs <;> simp_all

lemma foldl_pass1_comm_long_of_none {l : List String} (r : Resolved)
    (h : ∀ d ∈ l, matchesCommLongP1 d = false) :
    (l.foldl pass1Step r).comm_long = r.comm_long := by
  induction l generalizing r with
  | nil => rfl
  | cons a as ih =>
    simp only [List.foldl_cons]
    rw [ih _ (fun d hd => h d (List.mem_cons_of_mem a hd)),
      pass1Step_comm_long_of_not r (h a (List.mem_cons_self a as))]

lemma foldl_pass1_noncomm_long_of_none {l : List String} (r : Resolved)
    (h : ∀ d ∈ l, matchesNoncommLongP1 d = false) :
    (l.foldl pass1Step r).noncomm_long = r.noncomm_long := by
  induction l generalizing r with
  | nil => rfl
  | cons a as ih =>
    simp only [List.foldl_cons]
    rw [ih _ (fun d hd => h d (List.mem_cons_of_mem a hd)),
      pass1Step_noncomm_long_of_not r (h a (List.mem_cons_self a as))]

lemma pass2Step_comm_long_of_some {c x : String} (r : Resolved)
    (h : r.comm_long = some x) :
    (pass2Step r c).comm_long = some x := by
  unfold pass2Step
  split_ifs <;> simp_all

lemma pass2Step_comm_long_of_not {c : String} (r : Resolved)
    (h : matchesCommLongP2 c = false) :
    (pass2Step r c).comm_long = r.comm_long := by
  simp only [matchesCommLongP2] at h
  unfold pass2Step
  split_ifs <;> simp_all

lemma pass2Step_comm_long_of_match {c : String} (r : Resolved)
    (h : matchesCommLongP2 c = true) (hn : r.comm_long = none) :
    (pass2Step r c).comm_long = some c := by
  simp only [matchesCommLongP2, Bool.and_eq_true] at h
  obtain ⟨⟨h1, h2⟩, h3⟩ := h
  simp [pass2Step, h1, h2, h3, hn]

lemma foldl_pass2_comm_long_of_some {l : List String} {x : String} (r : Resolved)
    (h : r.comm_long = some x) :
    (l.foldl pass2Step r).comm_long = some x := by
  induction l generalizing r with
  | nil => exact h
  | cons a as ih =>
    exact ih _ (pass2Step_comm_long_of_some r h)

lemma foldl_pass2_comm_long_first {l₁ l₂ : List String} {c : String} (r : Resolved)
    (hn : r.comm_long = none)
    (h1 : ∀ d ∈ l₁, matchesCommLongP2 d = false)
    (hc : matchesCommLongP2 c = true) :
    ((l₁ ++ c :: l₂).foldl pass2Step r).comm_long = some c := by
  induction l₁ generalizing r with
  | nil =>
    simp only [List.nil_append, List.foldl_cons]
    exact foldl_pass2_comm_long_of_some _ (pass2Step_comm_long_of_match r hc hn)
  | cons a as ih =>
    simp only [List.cons_append, List.foldl_cons]
    refine ih _ ?_ (fun d hd => h1 d (List.mem_cons_of_mem a hd))
    rw [pass2Step_comm_long_of_not r (h1 a (List.mem_cons_self a as)), hn]

lemma foldl_pass1_comm_long_last {l₁ l₂ : List String} {c : String} (r : Resolved)
    (hc : matchesCommLongP1 c = true)
    (h2 : ∀ d ∈ l₂, matchesCommLongP1 d = false) :
    ((l₁ ++ c :: l₂).foldl pass1Step r).comm_long = some c := by
  rw [List.foldl_append, List.foldl_cons,
    pass1Step_comm_long_of_match _ hc, foldl_pass1_comm_long_of_none _ h2]

/-- After Pass 1, the resolver either kept the Pass-1 state (gate
closed) or ran Pass 2 from it; either way a `some` Commercial-Long
survives. -/
lemma resolveColumns_comm_long_of_pass1_some {cols : List String} {x : String}
    (h : (cols.foldl pass1Step emptyR).comm_long = some x) :
    (resolveColumns cols).comm_long = some x := by
  unfold resolveColumns
  simp only []
  split_ifs with hg
  · exact foldl_pass2_comm_long_of_some _ h
  · exact h

/-- Claim C2 counterexample: two distinct columns both match the Pass-1
Commercial-Long rule; the resolver keeps the LATER one in column
order, not the first. -/
theorem pass1_not_first_match :
    (resolveColumns ["Commercial Positions-Long (All) Old",
      "Commercial Positions-Long (All)"]).comm_long
      = some "Commercial Positions-Long (All)" ∧
    (resolveColumns ["Commercial Positions-Long (All) Old",
      "Commercial Positions-Long (All)"]).comm_long
      ≠ some "Commercial Positions-Long (All) Old" := by
  exact ⟨by rfl, by decide⟩

/-- Claim C2 (amended): within Pass 1 the LAST matching column in column
order is kept for a role (later matches overwrite earlier ones,
illustrated on Commercial-Long); within Pass 2 the first matching
column is kept once the role is still unresolved and the
Noncommercial gate lets Pass 2 run. -/
theorem resolver_match_order
    (l₁ l₂ m₁ m₂ : List String) (c d : String)
    (hc : matchesCommLongP1 c = true)
    (h2 : ∀ e ∈ l₂, matchesCommLongP1 e = false)
    (hp1 : ∀ e ∈ m₁ ++ d :: m₂, matchesCommLongP1 e = false)
    (hg : ∀ e ∈ m₁ ++ d :: m₂, matchesNoncommLongP1 e = false)
    (hm1 : ∀ e ∈ m₁, matchesCommLongP2 e = false)
    (hd : matchesCommLongP2 d = true) :
    (resolveColumns (l₁ ++ c :: l₂)).comm_long = some c ∧
    (resolveColumns (m₁ ++ d :: m₂)).comm_long = some d := by
  constructor
  · exact resolveColumns_comm_long_of_pass1_some (foldl_pass1_comm_long_last _ hc h2)
  · have hnl : ((m₁ ++ d :: m₂).foldl pass1Step emptyR).noncomm_long = none := by
      rw [foldl_pass1_noncomm_long_of_none _ hg]; rfl
    have hcl : ((m₁ ++ d :: m₂).foldl pass1Step emptyR).comm_long = none := by
      rw [foldl_pass1_comm_long_of_none _ hp1]; rfl
    unfold resolveColumns
    simp only []
    rw [hnl]
    simp only [Option.isNone_none, Bool.true_or, if_true]
    exact foldl_pass2_comm_long_first _ hcl hm1 hd

/-- Claim C2 witness: the amended order facts at concrete column lists. -/
theorem resolver_match_order_witness :
    (resolveColumns (["Commercial-Long Positions (All)"] ++
      "Commercial Positions-Long (All)" :: ["Foo"])).comm_long
      = some "Commercial Positions-Long (All)" ∧
    (resolveColumns (["Bar"] ++
      "Commercial Traders-Long (All)" :: ["Commercial Traders-Long (All) Z"])).comm_long
      = some "Commercial Traders-Long (All)" :=
  resolver_match_order ["Commercial-Long Positions (All)"] ["Foo"]
    ["Bar"] ["Commercial Traders-Long (All) Z"]
    "Commercial Positions-Long (All)" "Commercial Traders-Long (All)"
    (by decide) (by decide) (by decide) (by decide) (by decide) (by decide)

/-- Claim C3 counterexample: the Noncommercial pair resolves in Pass 1, so
Pass 2 never runs (`main.py` line 349); the Commercial role has no
"positions" column and a valid "traders" column, yet stays
unresolved. -/
theorem pass2_gate_blocks_commercial_fallback :
    (resolveColumns ["Noncommercial Positions-Long (All)",
      "Noncommercial Positions-Short (All)", "Commercial Traders-Long (All)",
      "Commercial Traders-Short (All)"]).comm_long = none ∧
    matchesCommLongP2 "Commercial Traders-Long (All)" = true := by
  exact ⟨by rfl, by rfl⟩

/-- Claim C3 (amended): Pass 2 runs only when the Noncommercial Long or
Short role is unresolved after Pass 1.  A role resolved in Pass 1
keeps its "positions" column through Pass 2; when the Noncommercial
pair fully resolves in Pass 1 the whole Pass-1 state is final even if
"traders" columns exist; and when the gate is open, a role with no
"positions" column falls back to its first matching "traders"
column. -/
theorem pass2_gate_behavior
    (cols₁ cols₂ m₁ m₂ : List String) (x x₂ y₂ d : String)
    (ha : (cols₁.foldl pass1Step emptyR).comm_long = some x)
    (hb1 : (cols₂.foldl pass1Step emptyR).noncomm_long = some x₂)
    (hb2 : (cols₂.foldl pass1Step emptyR).noncomm_short = some y₂)
    (hp1 : ∀ e ∈ m₁ ++ d :: m₂, matchesCommLongP1 e = false)
    (hg : ∀ e ∈ m₁ ++ d :: m₂, matchesNoncommLongP1 e = false)
    (hm1 : ∀ e ∈ m₁, matchesCommLongP2 e = false)
    (hd : matchesCommLongP2 d = true) :
    (resolveColumns cols₁).comm_long = some x ∧
    resolveColumns cols₂ = cols₂.foldl pass1Step emptyR ∧
    (resolveColumns (m₁ ++ d :: m₂)).comm_long = some d := by
  refine ⟨resolveColumns_comm_long_of_pass1_some ha, ?_, ?_⟩
  · unfold resolveColumns
    simp only []
    rw [hb1, hb2]
    simp
  · have hnl : ((m₁ ++ d :: m₂).foldl pass1Step emptyR).noncomm_long = none := by
      rw [foldl_pass1_noncomm_long_of_none _ hg]; rfl
    have hcl : ((m₁ ++ d :: m₂).foldl pass1Step emptyR).comm_long = none := by
      rw [foldl_pass1_comm_long_of_none _ hp1]; rfl
    unfold resolveColumns
    simp only []
    rw [hnl]
    simp only [Option.isNone_none, Bool.true_or, if_true]
    exact foldl_pass2_comm_long_first _ hcl hm1 hd

/-- Claim C3 witness: the three amended facts at concrete column lists. -/
theorem pass2_gate_behavior_witness :
    (resolveColumns ["Commercial Positions-Long (All)",
      "Commercial Traders-Long (All)"]).comm_long
      = some "Commercial Positions-Long (All)" ∧
    resolveColumns ["Noncommercial Positions-Long (All)",
      "Noncommercial Positions-Short (All)", "Commercial Traders-Long (All)",
      "Commercial Traders-Short (All)"]
      = ["Noncommercial Positions-Long (All)",
        "Noncommercial Positions-Short (All)", "Commercial Traders-Long (All)",
        "Commercial Traders-Short (All)"].foldl pass1Step emptyR ∧
    (resolveColumns (["Date"] ++ "Commercial Traders-Long (All)" :: [])).comm_long
      = some "Commercial Traders-Long (All)" :=
  pass2_gate_behavior
    ["Commercial Positions-Long (All)", "Commercial Traders-Long (All)"]
    ["Noncommercial Positions-Long (All)", "Noncommercial Positions-Short (All)",
      "Commercial Traders-Long (All)", "Commercial Traders-Short (All)"]
    ["Date"] []
    "Commercial Positions-Long (All)"
    "Noncommercial Positions-Long (All)" "Noncommercial Positions-Short (All)"
    "Commercial Traders-Long (All)"
    (by rfl) (by rfl) (by rfl) (by decide) (by decide) (by decide) (by rfl)


/-! ### Table lemmas -/

lemma applyMask_nil (m : List Bool) : applyMask [] m = [] := by
  cases m <;> rfl

lemma getColVals_maskFilter (t : Table) (m : List Bool) (c : String) :
    getColVals (maskFilter t m) c = applyMask (getColVals t c) m := by
  obtain ⟨l⟩ := t
  induction l with
  | nil => simp [getColVals, maskFilter, applyMask_nil]
  | cons p ps ih =>
    cases hp : p.1 == c with
    | true => simp [getColVals, maskFilter, List.find?_cons, hp]
    | false =>
      simp only [getColVals, maskFilter, List.map_cons, List.find?_cons, hp] at ih ⊢
      exact ih

lemma getColVals_gather_some {t : Table} {c : String} {p : String × List Value}
    (h : t.cols.find? (fun p => p.1 == c) = some p) (idx : List Nat) :
    getColVals (gather t idx) c = idx.map (fun i => p.2.getD i Value.nan) := by
  obtain ⟨l⟩ := t
  induction l with
  | nil => simp at h
  | cons q qs ih =>
    cases hq : q.1 == c with
    | true =>
      simp only [List.find?_cons, hq] at h
      injection h with h
      subst h
      simp [getColVals, gather, List.find?_cons, hq]
    | false =>
      simp only [List.find?_cons, hq] at h
      simp only [getColVals, gather, List.map_cons, List.find?_cons, hq] at ih ⊢
      exact ih h

lemma getColVals_none {t : Table} {c : String}
    (h : t.cols.find? (fun p => p.1 == c) = none) :
    getColVals t c = [] := by
  unfold getColVals
  rw [h]

lemma getColVals_gather_none {t : Table} {c : String}
    (h : t.cols.find? (fun p => p.1 == c) = none) (idx : List Nat) :
    getColVals (gather t idx) c = [] := by
  obtain ⟨l⟩ := t
  induction l with
  | nil => rfl
  | cons q qs ih =>
    cases hq : q.1 == c with
    | true => simp [List.find?_cons, hq] at h
    | false =>
      simp only [List.find?_cons, hq] at h
      simp only [getColVals, gather, List.map_cons, List.find?_cons, hq] at ih ⊢
      exact ih h

lemma colNames_maskFilter (t : Table) (m : List Bool) :
    colNames (maskFilter t m) = colNames t := by
  simp [colNames, maskFilter]

lemma colNames_filterEq (t : Table) (c : String) (v : Value) :
    colNames (filterEq t c v) = colNames t :=
  colNames_maskFilter _ _

lemma colNames_gather (t : Table) (idx : List Nat) :
    colNames (gather t idx) = colNames t := by
  simp [colNames, gather]

lemma colNames_sortByCol (t : Table) (c : String) :
    colNames (sortByCol t c) = colNames t :=
  colNames_gather _ _

lemma find?_overwrite_self (c : String) (v : List Value) :
    ∀ l : List (String × List Value), l.any (fun p => p.1 == c) = true →
      (l.map (fun p => if p.1 == c then (c, v) else p)).find? (fun p => p.1 == c)
        = some (c, v)
  | [], h => by simp at h
  | p :: ps, h => by
    cases hp : p.1 == c with
    | true =>
      have hp' : p.1 = c := by simpa using hp
      simp [List.find?_cons, hp']
    | false =>
      simp only [List.any_cons, hp, Bool.false_or] at h
      simp only [List.map_cons, hp, Bool.false_eq_true, if_false,
        List.find?_cons, find?_overwrite_self c v ps h]

lemma find?_overwrite_ne (c c' : String) (v : List Value) (hne : c' ≠ c) :
    ∀ l : List (String × List Value),
      (l.map (fun p => if p.1 == c then (c, v) else p)).find? (fun p => p.1 == c')
        = l.find? (fun p => p.1 == c')
  | [] => rfl
  | p :: ps => by
    have hcc : (c == c') = false := by simp [Ne.symm hne]
    cases hp : p.1 == c with
    | true =>
      have hp' : p.1 = c := by simpa using hp
      have hpc : (p.1 == c') = false := by simp [hp', Ne.symm hne]
      simp only [List.map_cons, hp, if_true, List.find?_cons, hpc, hcc,
        find?_overwrite_ne c c' v hne ps]
    | false =>
      simp only [List.map_cons, hp, Bool.false_eq_true, if_false, List.find?_cons]
      cases hpc : p.1 == c' with
      | true => rfl
      | false => exact find?_overwrite_ne c c' v hne ps

lemma find?_of_any_false {c : String} {l : List (String × List Value)}
    (h : l.any (fun p => p.1 == c) = false) :
    l.find? (fun p => p.1 == c) = none := by
  rw [List.find?_eq_none]
  intro x hx hc
  have : l.any (fun p => p.1 == c) = true := List.any_eq_true.mpr ⟨x, hx, hc⟩
  rw [h] at this
  exact Bool.false_ne_true this

lemma getColVals_setCol_self (t : Table) (c : String) (v : List Value) :
    getColVals (setCol t c v) c = v := by
  obtain ⟨l⟩ := t
  unfold setCol
  split_ifs with h
  · simp only [getColVals]
    rw [find?_overwrite_self c v l h]
  · have hany : l.any (fun p => p.1 == c) = false := Bool.eq_false_iff.mpr h
    simp only [getColVals, List.find?_append, find?_of_any_false hany]
    simp [List.find?_cons]

lemma getColVals_setCol_ne (t : Table) {c c' : String} (v : List Value)
    (hne : c' ≠ c) :
    getColVals (setCol t c v) c' = getColVals t c' := by
  obtain ⟨l⟩ := t
  have hcc : (c == c') = false := by simp [Ne.symm hne]
  unfold setCol
  split_ifs with h
  · simp only [getColVals]
    rw [find?_overwrite_ne c c' v hne l]
  · simp only [getColVals, List.find?_append]
    cases hf : l.find? (fun p => p.1 == c') with
    | some p => simp
    | none => simp [List.find?_cons, hcc]

/-! ### Deriver lemmas -/

lemma deriveStep_no_pair (t : Table) (lo so : Option String)
    (n a b : String) (h : lo = none ∨ so = none) :
    deriveStep t lo so n a b = (t, none) := by
  rcases h with h | h
  · subst h; cases so <;> rfl
  · subst h; cases lo <;> rfl

lemma getColVals_deriveStep_untouched (t : Table) (lo so : Option String)
    (n a b c : String)
    (hlo : ∀ x, lo = some x → x ≠ c) (hso : ∀ x, so = some x → x ≠ c)
    (hn : n ≠ c) :
    getColVals (deriveStep t lo so n a b).1 c = getColVals t c := by
  cases lo with
  | none => rw [deriveStep_no_pair t none so n a b (Or.inl rfl)]
  | some l =>
    cases so with
    | none => rw [deriveStep_no_pair t (some l) none n a b (Or.inr rfl)]
    | some s =>
      unfold deriveStep
      simp only []
      rw [getColVals_setCol_ne _ _ (Ne.symm hn),
        getColVals_setCol_ne _ _ (Ne.symm (hso s rfl)),
        getColVals_setCol_ne _ _ (Ne.symm (hlo l rfl))]

lemma deriveStep_net (t : Table) (l s n a b : String) (hls : l ≠ s) :
    getColVals (deriveStep t (some l) (some s) n a b).1 n
      = ((getColVals t l).zip (getColVals t s)).map
          (fun p => Value.num (toNumeric p.1 - toNumeric p.2)) := by
  unfold deriveStep
  simp only []
  rw [getColVals_setCol_self, getColVals_setCol_ne _ _ hls,
    getColVals_setCol_self, getColVals_setCol_self,
    getColVals_setCol_ne _ _ (Ne.symm hls), List.zip_map, List.map_map]
  rfl

lemma deriveStep_snd_pair (t : Table) (l s n a b : String) :
    (deriveStep t (some l) (some s) n a b).2 = some (a, n, b) := rfl

/-- Claim C4: for every category whose Long and Short columns both resolve
(to distinct columns not clashing with the other categories' resolved
or derived names), the derived net column equals Long minus Short
pointwise, with non-numeric cells coerced to zero by `toNumeric`. -/
theorem net_is_long_minus_short (t : Table) (r : Resolved) :
    (∀ l s, r.comm_long = some l → r.comm_short = some s → l ≠ s →
      (∀ x, r.noncomm_long = some x → x ≠ "Commercial_Net") →
      (∀ x, r.noncomm_short = some x → x ≠ "Commercial_Net") →
      (∀ x, r.small_long = some x → x ≠ "Commercial_Net") →
      (∀ x, r.small_short = some x → x ≠ "Commercial_Net") →
      getColVals (deriveAll t r).1 "Commercial_Net"
        = ((getColVals t l).zip (getColVals t s)).map
            (fun p => Value.num (toNumeric p.1 - toNumeric p.2))) ∧
    (∀ l s, r.noncomm_long = some l → r.noncomm_short = some s → l ≠ s →
      (∀ x, r.comm_long = some x → x ≠ l ∧ x ≠ s) →
      (∀ x, r.comm_short = some x → x ≠ l ∧ x ≠ s) →
      "Commercial_Net" ≠ l → "Commercial_Net" ≠ s →
      (∀ x, r.small_long = some x → x ≠ "NonCommercial_Net") →
      (∀ x, r.small_short = some x → x ≠ "NonCommercial_Net") →
      getColVals (deriveAll t r).1 "NonCommercial_Net"
        = ((getColVals t l).zip (getColVals t s)).map
            (fun p => Value.num (toNumeric p.1 - toNumeric p.2))) ∧
    (∀ l s, r.small_long = some l → r.small_short = some s → l ≠ s →
      (∀ x, r.comm_long = some x → x ≠ l ∧ x ≠ s) →
      (∀ x, r.comm_short = some x → x ≠ l ∧ x ≠ s) →
      (∀ x, r.noncomm_long = some x → x ≠ l ∧ x ≠ s) →
      (∀ x, r.noncomm_short = some x → x ≠ l ∧ x ≠ s) →
      "Commercial_Net" ≠ l → "Commercial_Net" ≠ s →
      "NonCommercial_Net" ≠ l → "NonCommercial_Net" ≠ s →
      getColVals (deriveAll t r).1 "NonReportable_Net"
        = ((getColVals t l).zip (getColVals t s)).map
            (fun p => Value.num (toNumeric p.1 - toNumeric p.2))) := by
  refine ⟨?_, ?_, ?_⟩
  · intro l s hl hs hls h3 h4 h5 h6
    unfold deriveAll
    simp only []
    rw [getColVals_deriveStep_untouched _ _ _ _ _ _ _ h5 h6 (by decide),
      getColVals_deriveStep_untouched _ _ _ _ _ _ _ h3 h4 (by decide),
      hl, hs]
    exact deriveStep_net t l s _ _ _ hls
  · intro l s hl hs hls hc1 hc2 hn1 hn2 h5 h6
    unfold deriveAll
    simp only []
    rw [getColVals_deriveStep_untouched _ _ _ _ _ _ _ h5 h6 (by decide),
      hl, hs, deriveStep_net _ l s _ _ _ hls,
      getColVals_deriveStep_untouched _ _ _ _ _ _ _
        (fun x hx => (hc1 x hx).1) (fun x hx => (hc2 x hx).1) hn1,
      getColVals_deriveStep_untouched _ _ _ _ _ _ _
        (fun x hx => (hc1 x hx).2) (fun x hx => (hc2 x hx).2) hn2]
  · intro l s hl hs hls hc1 hc2 hn3 hn4 hcn1 hcn2 hnn1 hnn2
    unfold deriveAll
    simp only []
    rw [hl, hs, deriveStep_net _ l s _ _ _ hls,
      getColVals_deriveStep_untouched _ _ _ _ _ _ _
        (fun x hx => (hn3 x hx).1) (fun x hx => (hn4 x hx).1) hnn1,
      getColVals_deriveStep_untouched _ _ _ _ _ _ _
        (fun x hx => (hn3 x hx).2) (fun x hx => (hn4 x hx).2) hnn2,
      getColVals_deriveStep_untouched _ _ _ _ _ _ _
        (fun x hx => (hc1 x hx).1) (fun x hx => (hc2 x hx).1) hcn1,
      getColVals_deriveStep_untouched _ _ _ _ _ _ _
        (fun x hx => (hc1 x hx).2) (fun x hx => (hc2 x hx).2) hcn2]

/-- Claim C4 witness: a two-row table with one non-numeric Long cell; the
Commercial net column is Long minus Short with the bad cell as 0. -/
theorem net_is_long_minus_short_witness :
    getColVals (deriveAll
        ⟨[("L", [Value.num 5, Value.str "x"]), ("S", [Value.num 2, Value.num 3])]⟩
        ⟨some "L", some "S", none, none, none, none⟩).1 "Commercial_Net"
      = ((getColVals ⟨[("L", [Value.num 5, Value.str "x"]),
            ("S", [Value.num 2, Value.num 3])]⟩ "L").zip
          (getColVals ⟨[("L", [Value.num 5, Value.str "x"]),
            ("S", [Value.num 2, Value.num 3])]⟩ "S")).map
          (fun p => Value.num (toNumeric p.1 - toNumeric p.2)) :=
  (net_is_long_minus_short _ _).1 "L" "S" rfl rfl (by decide)
    (fun x hx => nomatch hx) (fun x hx => nomatch hx)
    (fun x hx => nomatch hx) (fun x hx => nomatch hx)

/-! ### Plot and consolidation lemmas -/

lemma colNames_startFilter (t : Table) (dc : String) (o : Option Value) :
    colNames (startFilter t dc o) = colNames t := by
  cases o with
  | none => rfl
  | some v => exact colNames_maskFilter _ _

lemma colNames_endFilter (t : Table) (dc : String) (o : Option Value) :
    colNames (endFilter t dc o) = colNames t := by
  cases o with
  | none => rfl
  | some v => exact colNames_maskFilter _ _

lemma deriveAll_snd_empty (t : Table) (r : Resolved)
    (h1 : r.comm_long = none ∨ r.comm_short = none)
    (h2 : r.noncomm_long = none ∨ r.noncomm_short = none)
    (h3 : r.small_long = none ∨ r.small_short = none) :
    (deriveAll t r).2 = [] := by
  unfold deriveAll
  rw [deriveStep_no_pair _ _ _ _ _ _ h1]
  simp only []
  rw [deriveStep_no_pair _ _ _ _ _ _ h2]
  simp only []
  rw [deriveStep_no_pair _ _ _ _ _ _ h3]
  rfl

/-- Claim C6: when the date and identifier columns resolve, the contract
filter is non-empty, the report is a legacy one, and none of the three
categories resolves a complete Long/Short pair, the plotter returns
the print-and-return outcome carrying the table's column names — no
exception. -/
theorem zero_categories_surface_columns (df : Table)
    (contract report_type : String) (sd ed : Option Value) (ds de : Value)
    (dc cc : String)
    (hd : findDateCol (colNames df) = some dc)
    (hc : findContractCol (colNames df) = some cc)
    (hne : (filterEq df cc (Value.str contract)).isEmpty = false)
    (hleg : containsLower report_type "legacy" = true)
    (h1 : (resolveColumns (colNames df)).comm_long = none ∨
          (resolveColumns (colNames df)).comm_short = none)
    (h2 : (resolveColumns (colNames df)).noncomm_long = none ∨
          (resolveColumns (colNames df)).noncomm_short = none)
    (h3 : (resolveColumns (colNames df)).small_long = none ∨
          (resolveColumns (colNames df)).small_short = none) :
    plot_trader_positions df contract report_type sd ed ds de
      = PlotResult.noPositionCols (colNames df) := by
  simp only [plot_trader_positions, hd, hc, hne, Bool.false_eq_true, if_false,
    hleg, if_true, colNames_sortByCol, colNames_endFilter, colNames_startFilter,
    colNames_filterEq, deriveAll_snd_empty _ _ h1 h2 h3, List.isEmpty_nil]

/-- Claim C6 witness: a one-row legacy table with no position columns. -/
theorem zero_categories_surface_columns_witness :
    plot_trader_positions
      ⟨[("Market_and_Exchange_Names", [Value.str "GOLD"]),
        ("Report_Date_as_YYYY-MM-DD", [Value.str "2024-01-02"]),
        ("Foo", [Value.num 1])]⟩
      "GOLD" "legacy_fut" none none (Value.str "2021-10-13") (Value.str "2026-10-12")
      = PlotResult.noPositionCols ["Market_and_Exchange_Names",
        "Report_Date_as_YYYY-MM-DD", "Foo"] :=
  zero_categories_surface_columns _ "GOLD" "legacy_fut" none none _ _
    "Report_Date_as_YYYY-MM-DD" "Market_and_Exchange_Names"
    (by rfl) (by rfl) (by rfl) (by rfl)
    (Or.inl (by rfl)) (Or.inl (by rfl)) (Or.inl (by rfl))

/-- Claim C9 counterexample: a non-legacy report type on a table with no
date column raises the date `ValueError` instead of printing the
not-supported message. -/
theorem non_legacy_still_raises_on_missing_date :
    plot_trader_positions ⟨[("Market", [Value.str "GOLD"]), ("X", [Value.num 2])]⟩
      "GOLD" "disaggregated_fut" none none (Value.str "2021-10-13")
      (Value.str "2026-10-12")
      = PlotResult.errNoDate ∧
    plot_trader_positions ⟨[("Market", [Value.str "GOLD"]), ("X", [Value.num 2])]⟩
      "GOLD" "disaggregated_fut" none none (Value.str "2021-10-13")
      (Value.str "2026-10-12")
      ≠ PlotResult.notSupported "disaggregated_fut" := by
  exact ⟨by rfl, by decide⟩

/-- Claim C9 (amended): once the date and identifier columns resolve and the
contract filter is non-empty, a report type without the substring
"legacy" gets the not-supported outcome, with no position-pair
resolution or derivation. -/
theorem non_legacy_prints_not_supported (df : Table)
    (contract report_type : String) (sd ed : Option Value) (ds de : Value)
    (dc cc : String)
    (hd : findDateCol (colNames df) = some dc)
    (hc : findContractCol (colNames df) = some cc)
    (hne : (filterEq df cc (Value.str contract)).isEmpty = false)
    (hleg : containsLower report_type "legacy" = false) :
    plot_trader_positions df contract report_type sd ed ds de
      = PlotResult.notSupported report_type := by
  simp only [plot_trader_positions, hd, hc, hne, Bool.false_eq_true, if_false, hleg]

/-- Claim C9 witness: a supported-schema table with a non-legacy report type. -/
theorem non_legacy_prints_not_supported_witness :
    plot_trader_positions
      ⟨[("Market_and_Exchange_Names", [Value.str "GOLD"]),
        ("Report_Date_as_YYYY-MM-DD", [Value.str "2024-01-02"])]⟩
      "GOLD" "disaggregated_fut" none none (Value.str "2021-10-13")
      (Value.str "2026-10-12")
      = PlotResult.notSupported "disaggregated_fut" :=
  non_legacy_prints_not_supported _ "GOLD" "disaggregated_fut" none none _ _
    "Report_Date_as_YYYY-MM-DD" "Market_and_Exchange_Names"
    (by rfl) (by rfl) (by rfl) (by rfl)

/-! ### Order lemmas for sorting -/

lemma charsLe_total : ∀ a b : List Char, charsLe a b = true ∨ charsLe b a = true
  | [], _ => Or.inl rfl
  | _ :: _, [] => Or.inr rfl
  | a :: as, b :: bs => by
    rcases Nat.lt_trichotomy a.toNat b.toNat with h | h | h
    · left; simp [charsLe, h]
    · rcases charsLe_total as bs with ih | ih
      · left; simp [charsLe, h, ih]
      · right; simp [charsLe, h.symm, ih]
    · right; simp [charsLe, h]

lemma charsLe_trans : ∀ a b c : List Char,
    charsLe a b = true → charsLe b c = true → charsLe a c = true
  | [], _, _, _, _ => rfl
  | _ :: _, [], _, hab, _ => by simp [charsLe] at hab
  | _ :: _, _ :: _, [], _, hbc => by simp [charsLe] at hbc
  | a :: as, b :: bs, c :: cs, hab, hbc => by
    simp only [charsLe] at hab hbc ⊢
    split_ifs at hab hbc ⊢ <;> try omega
    all_goals first
      | rfl
      | exact charsLe_trans as bs cs hab hbc

lemma valueLe_total (a b : Value) : valueLe a b = true ∨ valueLe b a = true := by
  cases a <;> cases b <;> simp [valueLe, valueRank] <;> first
    | omega
    | exact charsLe_total _ _

lemma valueLe_trans (a b c : Value) (hab : valueLe a b = true)
    (hbc : valueLe b c = true) : valueLe a c = true := by
  cases a <;> cases b <;> cases c <;>
    simp [valueLe, valueRank] at hab hbc ⊢ <;> first
    | omega
    | exact charsLe_trans _ _ _ hab hbc

instance : IsTotal Value valueLeP := ⟨valueLe_total⟩

instance : IsTrans Value valueLeP := ⟨valueLe_trans⟩

instance : IsTotal (Nat × Value) pairLeP :=
  ⟨fun a b => valueLe_total a.2 b.2⟩

instance : IsTrans (Nat × Value) pairLeP :=
  ⟨fun a b c => valueLe_trans a.2 b.2 c.2⟩

/-! ### Dedup and sort lemmas -/

lemma applyMask_sublist : ∀ (l : List Value) (m : List Bool),
    (applyMask l m).Sublist l
  | [], m => by rw [applyMask_nil]
  | _ :: _, [] => by simp [applyMask]
  | v :: vs, b :: bs => by
    cases b with
    | true =>
      simp only [applyMask, if_true]
      exact (applyMask_sublist vs bs).cons₂ v
    | false =>
      simp only [applyMask, Bool.false_eq_true, if_false]
      exact (applyMask_sublist vs bs).cons v

lemma nodup_applyMask_dropDupLastMask : ∀ l : List Value,
    (applyMask l (dropDupLastMask l)).Nodup
  | [] => by simp [applyMask]
  | v :: vs => by
    cases hv : vs.contains v with
    | true =>
      simp only [dropDupLastMask, hv, Bool.not_true, applyMask,
        Bool.false_eq_true, if_false]
      exact nodup_applyMask_dropDupLastMask vs
    | false =>
      have hnm : v ∉ vs := by simpa using hv
      simp only [dropDupLastMask, hv, Bool.not_false, applyMask, if_true]
      refine List.Nodup.cons ?_ (nodup_applyMask_dropDupLastMask vs)
      intro hmem
      exact hnm ((applyMask_sublist vs (dropDupLastMask vs)).mem hmem)

lemma sortPerm_map_getD (ks : List Value) :
    (sortPermByKey ks).map (fun i => ks.getD i Value.nan)
      = (ks.enum.insertionSort pairLeP).map Prod.snd := by
  unfold sortPermByKey
  rw [List.map_map]
  apply List.map_congr_left
  intro p hp
  have hmem : p ∈ ks.enum :=
    (List.perm_insertionSort pairLeP ks.enum).mem_iff.mp hp
  have hget := List.mem_enum_iff_getElem?.mp hmem
  simp [Function.comp, List.getD_eq_getElem?_getD, hget]

lemma sorted_map_snd (ks : List Value) :
    ((ks.enum.insertionSort pairLeP).map Prod.snd).Pairwise valueLeP := by
  have h := List.sorted_insertionSort pairLeP ks.enum
  exact List.Pairwise.map Prod.snd (fun a b hab => hab) h

lemma perm_map_snd (ks : List Value) :
    ((ks.enum.insertionSort pairLeP).map Prod.snd).Perm ks := by
  have h := (List.perm_insertionSort pairLeP ks.enum).map Prod.snd
  rwa [List.enum_map_snd] at h

lemma getColVals_eq_of_find? {t : Table} {c : String}
    {p : String × List Value}
    (h : t.cols.find? (fun p => p.1 == c) = some p) :
    getColVals t c = p.2 := by
  unfold getColVals
  rw [h]

lemma mergeStep_keys (e i : Table) (dcol : String) :
    (getColVals (mergeStep e i dcol) dcol).Nodup ∧
    (getColVals (mergeStep e i dcol) dcol).Pairwise valueLeP := by
  unfold mergeStep sortByCol
  simp only []
  have hks2 : getColVals (maskFilter (concatTables e i)
      (dropDupLastMask (getColVals (concatTables e i) dcol))) dcol
      = applyMask (getColVals (concatTables e i) dcol)
          (dropDupLastMask (getColVals (concatTables e i) dcol)) :=
    getColVals_maskFilter _ _ _
  cases hf : (maskFilter (concatTables e i)
      (dropDupLastMask (getColVals (concatTables e i) dcol))).cols.find?
      (fun p => p.1 == dcol) with
  | none =>
    rw [getColVals_gather_none hf]
    exact ⟨List.nodup_nil, List.Pairwise.nil⟩
  | some p =>
    have hp2 : getColVals (maskFilter (concatTables e i)
        (dropDupLastMask (getColVals (concatTables e i) dcol))) dcol = p.2 :=
      getColVals_eq_of_find? hf
    have hpd : p.2 = applyMask (getColVals (concatTables e i) dcol)
        (dropDupLastMask (getColVals (concatTables e i) dcol)) := by
      rw [← hp2, hks2]
    rw [getColVals_gather_some hf, hp2, sortPerm_map_getD]
    refine ⟨?_, sorted_map_snd p.2⟩
    exact (perm_map_snd p.2).nodup_iff.mpr
      (hpd ▸ nodup_applyMask_dropDupLastMask _)

/-- Claim C5 counterexample: a contract appearing in a single table is
returned as-is — rows keep the source order, here descending dates,
with no per-(contract, date) dedup or ascending sort applied. -/
theorem single_table_not_sorted :
    consolidate_by_contract [("legacy_fut",
      ⟨[("Market", [Value.str "GOLD", Value.str "GOLD"]),
        ("Date", [Value.str "2024-01-09", Value.str "2024-01-02"])]⟩)]
      = Except.ok ([], [(Value.str "GOLD",
          ⟨[("Market", [Value.str "GOLD", Value.str "GOLD"]),
            ("Date", [Value.str "2024-01-09", Value.str "2024-01-02"])]⟩)]) ∧
    valueLe (Value.str "2024-01-09") (Value.str "2024-01-02") = false := by
  exact ⟨by rfl, by rfl⟩

/-- Claim C5 (amended): a contract seen in exactly one table passes through
unchanged (no dedup, no sort); each merge of a contract seen again
dedups the date key (keeping the most recent occurrence) and sorts
ascending by date — shown by the key column of any merge being
duplicate-free and sorted, and by a two-table overlap keeping the
later table's row. -/
theorem consolidation_behavior (t : Table) (rt ccol : String) (v : Value)
    (e i : Table) (dcol : String)
    (h1 : t.isEmpty = false)
    (h2 : findContractCol (colNames t) = some ccol)
    (h3 : uniqueVals (getColVals t ccol) = [v]) :
    consolidate_by_contract [(rt, t)]
      = Except.ok ([], [(v, filterEq t ccol v)]) ∧
    (getColVals (mergeStep e i dcol) dcol).Nodup ∧
    (getColVals (mergeStep e i dcol) dcol).Pairwise valueLeP ∧
    consolidate_by_contract
      [("legacy_fut", ⟨[("Market", [Value.str "GOLD"]),
          ("Date", [Value.str "2024-01-02"]), ("X", [Value.num 1])]⟩),
       ("legacy_futopt", ⟨[("Market", [Value.str "GOLD"]),
          ("Date", [Value.str "2024-01-02"]), ("X", [Value.num 2])]⟩)]
      = Except.ok ([], [(Value.str "GOLD",
          ⟨[("Market", [Value.str "GOLD"]), ("Date", [Value.str "2024-01-02"]),
            ("X", [Value.num 2])]⟩)]) := by
  refine ⟨?_, (mergeStep_keys e i dcol).1, (mergeStep_keys e i dcol).2, by rfl⟩
  simp only [consolidate_by_contract, consolidateAux, h1, Bool.false_eq_true,
    if_false, h2, h3, consolidateContracts, lookupAt, List.find?_nil,
    Option.map_none', List.nil_append]

/-- Claim C5 witness: the amended consolidation facts at concrete tables. -/
theorem consolidation_behavior_witness :
    consolidate_by_contract [("legacy_fut",
      ⟨[("Market", [Value.str "G"]), ("Date", [Value.str "2024-01-02"])]⟩)]
      = Except.ok ([], [(Value.str "G",
          filterEq ⟨[("Market", [Value.str "G"]),
            ("Date", [Value.str "2024-01-02"])]⟩ "Market" (Value.str "G"))]) ∧
    (getColVals (mergeStep
        ⟨[("Date", [Value.str "2024-01-09", Value.str "2024-01-02"])]⟩
        ⟨[("Date", [Value.str "2024-01-09"])]⟩ "Date") "Date").Nodup ∧
    (getColVals (mergeStep
        ⟨[("Date", [Value.str "2024-01-09", Value.str "2024-01-02"])]⟩
        ⟨[("Date", [Value.str "2024-01-09"])]⟩ "Date") "Date").Pairwise valueLeP ∧
    consolidate_by_contract
      [("legacy_fut", ⟨[("Market", [Value.str "GOLD"]),
          ("Date", [Value.str "2024-01-02"]), ("X", [Value.num 1])]⟩),
       ("legacy_futopt", ⟨[("Market", [Value.str "GOLD"]),
          ("Date", [Value.str "2024-01-02"]), ("X", [Value.num 2])]⟩)]
      = Except.ok ([], [(Value.str "GOLD",
          ⟨[("Market", [Value.str "GOLD"]), ("Date", [Value.str "2024-01-02"]),
            ("X", [Value.num 2])]⟩)]) :=
  consolidation_behavior
    ⟨[("Market", [Value.str "G"]), ("Date", [Value.str "2024-01-02"])]⟩
    "legacy_fut" "Market" (Value.str "G")
    ⟨[("Date", [Value.str "2024-01-09", Value.str "2024-01-02"])]⟩
    ⟨[("Date", [Value.str "2024-01-09"])]⟩ "Date"
    (by rfl) (by rfl) (by rfl)

/-- Claim C7 counterexample: derivation on a resolved legacy table
overwrites the resolved Long column in place with its numeric
coercion — the original non-numeric cell value is not retained. -/
theorem derivation_coerces_in_place :
    getColVals (deriveAll
        ⟨[("Commercial Positions-Long (All)", [Value.str "N/A"]),
          ("Commercial Positions-Short (All)", [Value.num 400])]⟩
        (resolveColumns ["Commercial Positions-Long (All)",
          "Commercial Positions-Short (All)"])).1
      "Commercial Positions-Long (All)" = [Value.num 0] ∧
    getColVals ⟨[("Commercial Positions-Long (All)", [Value.str "N/A"]),
          ("Commercial Positions-Short (All)", [Value.num 400])]⟩
      "Commercial Positions-Long (All)" = [Value.str "N/A"] := by
  exact ⟨by rfl, by rfl⟩

lemma deriveStep_long_coerced (t : Table) (l s n a b : String)
    (hls : l ≠ s) (hln : l ≠ n) :
    getColVals (deriveStep t (some l) (some s) n a b).1 l
      = (getColVals t l).map (fun v => Value.num (toNumeric v)) := by
  unfold deriveStep
  simp only []
  rw [getColVals_setCol_ne _ _ hln, getColVals_setCol_ne _ _ hls,
    getColVals_setCol_self]

/-- Claim C7 (amended): derivation leaves every column other than the
resolved Long/Short columns and the three derived net fields
unchanged; the net values go into new derived fields; but a resolved
Long column is replaced by its numeric coercion, so non-numeric
original cells become 0 rather than being retained (the caller's own
table is untouched because the code operates on a copy). -/
theorem derivation_frame_effect (t : Table) (r : Resolved) (c l s : String) :
    ((∀ x, r.comm_long = some x → x ≠ c) →
     (∀ x, r.comm_short = some x → x ≠ c) →
     (∀ x, r.noncomm_long = some x → x ≠ c) →
     (∀ x, r.noncomm_short = some x → x ≠ c) →
     (∀ x, r.small_long = some x → x ≠ c) →
     (∀ x, r.small_short = some x → x ≠ c) →
     "Commercial_Net" ≠ c → "NonCommercial_Net" ≠ c →
     "NonReportable_Net" ≠ c →
     getColVals (deriveAll t r).1 c = getColVals t c) ∧
    (r.comm_long = some l → r.comm_short = some s → l ≠ s →
     l ≠ "Commercial_Net" →
     (∀ x, r.noncomm_long = some x → x ≠ l) →
     (∀ x, r.noncomm_short = some x → x ≠ l) →
     (∀ x, r.small_long = some x → x ≠ l) →
     (∀ x, r.small_short = some x → x ≠ l) →
     "NonCommercial_Net" ≠ l → "NonReportable_Net" ≠ l →
     getColVals (deriveAll t r).1 l
       = (getColVals t l).map (fun v => Value.num (toNumeric v))) := by
  constructor
  · intro h1 h2 h3 h4 h5 h6 hn1 hn2 hn3
    unfold deriveAll
    simp only []
    rw [getColVals_deriveStep_untouched _ _ _ _ _ _ _ h5 h6 hn3,
      getColVals_deriveStep_untouched _ _ _ _ _ _ _ h3 h4 hn2,
      getColVals_deriveStep_untouched _ _ _ _ _ _ _ h1 h2 hn1]
  · intro hl hs hls hln h3 h4 h5 h6 hn2 hn3
    unfold deriveAll
    simp only []
    rw [getColVals_deriveStep_untouched _ _ _ _ _ _ _ h5 h6 hn3,
      getColVals_deriveStep_untouched _ _ _ _ _ _ _ h3 h4 hn2,
      hl, hs, deriveStep_long_coerced _ _ _ _ _ _ hls hln]

/-- Claim C7 witness: the frame facts at a concrete table and resolution. -/
theorem derivation_frame_effect_witness :
    getColVals (deriveAll
        ⟨[("Market", [Value.str "GOLD"]), ("L", [Value.str "N/A"]),
          ("S", [Value.num 400])]⟩
        ⟨some "L", some "S", none, none, none, none⟩).1 "Market"
      = getColVals ⟨[("Market", [Value.str "GOLD"]), ("L", [Value.str "N/A"]),
          ("S", [Value.num 400])]⟩ "Market" ∧
    getColVals (deriveAll
        ⟨[("Market", [Value.str "GOLD"]), ("L", [Value.str "N/A"]),
          ("S", [Value.num 400])]⟩
        ⟨some "L", some "S", none, none, none, none⟩).1 "L"
      = (getColVals ⟨[("Market", [Value.str "GOLD"]), ("L", [Value.str "N/A"]),
          ("S", [Value.num 400])]⟩ "L").map (fun v => Value.num (toNumeric v)) :=
  ⟨(derivation_frame_effect _ ⟨some "L", some "S", none, none, none, none⟩
      "Market" "L" "S").1
      (fun x hx => by injection hx with hx; subst hx; decide)
      (fun x hx => by injection hx with hx; subst hx; decide)
      (fun x hx => nomatch hx) (fun x hx => nomatch hx)
      (fun x hx => nomatch hx) (fun x hx => nomatch hx)
      (by decide) (by decide) (by decide),
   (derivation_frame_effect _ ⟨some "L", some "S", none, none, none, none⟩
      "Market" "L" "S").2
      rfl rfl (by decide) (by decide)
      (fun x hx => nomatch hx) (fun x hx => nomatch hx)
      (fun x hx => nomatch hx) (fun x hx => nomatch hx)
      (by decide) (by decide)⟩

/-- Claim C8 counterexample: the second table shares contract GOLD but has
no date column; the merge's date lookup raises an uncaught IndexError
that aborts the whole consolidation instead of skipping that table. -/
theorem merge_missing_date_aborts_all :
    consolidate_by_contract
      [("legacy_fut", ⟨[("Market", [Value.str "GOLD"]),
          ("Date", [Value.str "2024-01-02"]), ("X", [Value.num 1])]⟩),
       ("supplemental_futopt", ⟨[("Market", [Value.str "GOLD"]),
          ("X", [Value.num 2])]⟩)]
      = Except.error "IndexError: list index out of range" := by
  rfl

/-- Claim C8 (amended): a table whose identifier column cannot be resolved
is skipped with a printed message and consolidation continues; in
plotting, a missing date or identifier column raises the
corresponding ValueError; but a missing date column while merging an
already-seen contract raises an uncaught IndexError aborting the
whole consolidation. -/
theorem schema_failure_modes
    (log : List String) (cons : List (Value × Table)) (rt : String)
    (t df df2 e : Table) (rest : List (String × Table))
    (contract report_type : String) (sd ed : Option Value) (ds de : Value)
    (dc ccol : String) (contractVal : Value) (contracts : List Value)
    (h1 : t.isEmpty = false)
    (h2 : findContractCol (colNames t) = none)
    (h3 : findDateCol (colNames df) = none)
    (h4 : findDateCol (colNames df2) = some dc)
    (h5 : findContractCol (colNames df2) = none)
    (h6 : lookupAt cons contractVal = some e)
    (h7 : findDateColSimple (colNames (filterEq df ccol contractVal)) = none) :
    consolidateAux ((rt, t) :: rest) (log, cons)
      = consolidateAux rest
          (log ++ ["Could not find contract column in " ++ rt], cons) ∧
    plot_trader_positions df contract report_type sd ed ds de
      = PlotResult.errNoDate ∧
    plot_trader_positions df2 contract report_type sd ed ds de
      = PlotResult.errNoContract ∧
    consolidateContracts df ccol (contractVal :: contracts) (log, cons)
      = Except.error "IndexError: list index out of range" := by
  refine ⟨?_, ?_, ?_, ?_⟩
  · simp only [consolidateAux, h1, Bool.false_eq_true, if_false, h2]
  · simp only [plot_trader_positions, h3]
  · simp only [plot_trader_positions, h4, h5]
  · simp only [consolidateContracts, h6, h7]

/-- Claim C8 witness: all four failure-mode facts at concrete inputs. -/
theorem schema_failure_modes_witness :
    consolidateAux [("supplemental_futopt", ⟨[("Foo", [Value.num 1])]⟩)]
        ([], [(Value.str "GOLD", ⟨[("Market", [Value.str "GOLD"])]⟩)])
      = consolidateAux []
          (["Could not find contract column in supplemental_futopt"],
            [(Value.str "GOLD", ⟨[("Market", [Value.str "GOLD"])]⟩)]) ∧
    plot_trader_positions ⟨[("Market", [Value.str "GOLD"])]⟩ "GOLD" "legacy_fut"
      none none (Value.str "a") (Value.str "b") = PlotResult.errNoDate ∧
    plot_trader_positions ⟨[("Report_Date_as_YYYY-MM-DD", [Value.str "2024-01-02"])]⟩
      "GOLD" "legacy_fut" none none (Value.str "a") (Value.str "b")
      = PlotResult.errNoContract ∧
    consolidateContracts ⟨[("Market", [Value.str "GOLD"])]⟩ "Market"
      [Value.str "GOLD"]
      ([], [(Value.str "GOLD", ⟨[("Market", [Value.str "GOLD"])]⟩)])
      = Except.error "IndexError: list index out of range" :=
  schema_failure_modes [] [(Value.str "GOLD", ⟨[("Market", [Value.str "GOLD"])]⟩)]
    "supplemental_futopt" ⟨[("Foo", [Value.num 1])]⟩
    ⟨[("Market", [Value.str "GOLD"])]⟩
    ⟨[("Report_Date_as_YYYY-MM-DD", [Value.str "2024-01-02"])]⟩
    ⟨[("Market", [Value.str "GOLD"])]⟩ []
    "GOLD" "legacy_fut" none none (Value.str "a") (Value.str "b")
    "Report_Date_as_YYYY-MM-DD" "Market" (Value.str "GOLD") []
    (by rfl) (by rfl) (by rfl) (by rfl) (by rfl) (by rfl) (by rfl)

/-- Claim C1: on the spec's end-to-end input table (underscore-named
columns), the resolver matches nothing — the Pass-1 rule demands the
substrings "commercial" and "(all)" which `Comm_Positions_Long_All`
lacks — so `plot_trader_positions` prints the no-position-columns
message instead of deriving Commercial_Net = 600. -/
theorem legacy_underscore_table_no_derivation :
    plot_trader_positions
      ⟨[("Market_and_Exchange_Names", [Value.str "GOLD"]),
        ("Report_Date_as_YYYY-MM-DD", [Value.str "2024-01-02"]),
        ("Comm_Positions_Long_All", [Value.num 1000]),
        ("Comm_Positions_Short_All", [Value.num 400])]⟩
      "GOLD" "legacy_fut" none none (Value.str "2021-10-13")
      (Value.str "2026-10-12")
      = PlotResult.noPositionCols ["Market_and_Exchange_Names",
        "Report_Date_as_YYYY-MM-DD", "Comm_Positions_Long_All",
        "Comm_Positions_Short_All"] ∧
    resolveColumns ["Market_and_Exchange_Names", "Report_Date_as_YYYY-MM-DD",
      "Comm_Positions_Long_All", "Comm_Positions_Short_All"] = emptyR := by
  exact ⟨by rfl, by rfl⟩

/-! ### uniqueVals lemmas -/

lemma mem_uniqueAux : ∀ (l seen : List Value) (x : Value),
    x ∈ uniqueAux seen l ↔ x ∈ l ∧ x ∉ seen
  | [], seen, x => by simp [uniqueAux]
  | v :: vs, seen, x => by
    cases hv : seen.contains v with
    | true =>
      have hvm : v ∈ seen := by simpa using hv
      simp only [uniqueAux, hv, if_true, mem_uniqueAux vs seen x,
        List.mem_cons]
      constructor
      · exact fun ⟨h1, h2⟩ => ⟨Or.inr h1, h2⟩
      · rintro ⟨h1 | h1, h2⟩
        · exact absurd (h1 ▸ hvm) h2
        · exact ⟨h1, h2⟩
    | false =>
      have hvm : v ∉ seen := by simpa using hv
      simp only [uniqueAux, hv, Bool.false_eq_true, if_false, List.mem_cons,
        mem_uniqueAux vs (seen ++ [v]) x, List.mem_append,
        List.mem_singleton]
      constructor
      · rintro (h | ⟨h1, h2⟩)
        · exact ⟨Or.inl h, h ▸ hvm⟩
        · exact ⟨Or.inr h1, fun hx => h2 (Or.inl hx)⟩
      · rintro ⟨h1 | h1, h2⟩
        · exact Or.inl h1
        · by_cases hxv : x = v
          · exact Or.inl hxv
          · exact Or.inr ⟨h1, by simp [h2, hxv]⟩

lemma nodup_uniqueAux : ∀ (l seen : List Value), (uniqueAux seen l).Nodup
  | [], _ => List.nodup_nil
  | v :: vs, seen => by
    cases hv : seen.contains v with
    | true =>
      simp only [uniqueAux, hv, if_true]
      exact nodup_uniqueAux vs seen
    | false =>
      simp only [uniqueAux, hv, Bool.false_eq_true, if_false]
      refine List.Nodup.cons ?_ (nodup_uniqueAux vs (seen ++ [v]))
      intro hmem
      exact ((mem_uniqueAux vs (seen ++ [v]) v).mp hmem).2 (by simp)

/-- Claim C10: `get_available_contracts` returns [] when the report type is
absent, its table is empty, or no identifier column exists; otherwise
the duplicate-free, ascending-sorted values of the first identifier
column — and never an error. -/
theorem available_contracts_spec (dfs : List (String × Table)) (rt : String)
    (df : Table) (c : String) :
    (dfs.find? (fun p => p.1 == rt) = none →
      get_available_contracts dfs rt = []) ∧
    ((dfs.find? (fun p => p.1 == rt)).map Prod.snd = some df →
      (df.isEmpty = true → get_available_contracts dfs rt = []) ∧
      (df.isEmpty = false → findContractCol (colNames df) = none →
        get_available_contracts dfs rt = []) ∧
      (df.isEmpty = false → findContractCol (colNames df) = some c →
        get_available_contracts dfs rt
          = sortVals (uniqueVals (getColVals df c)) ∧
        (get_available_contracts dfs rt).Nodup ∧
        (get_available_contracts dfs rt).Pairwise valueLeP ∧
        (∀ v, v ∈ get_available_contracts dfs rt ↔ v ∈ getColVals df c))) := by
  constructor
  · intro h
    simp [get_available_contracts, h]
  · intro h
    refine ⟨?_, ?_, ?_⟩
    · intro he
      simp [get_available_contracts, h, he]
    · intro he hc
      simp [get_available_contracts, h, he, hc]
    · intro he hc
      have hres : get_available_contracts dfs rt
          = sortVals (uniqueVals (getColVals df c)) := by
        simp [get_available_contracts, h, he, hc]
      refine ⟨hres, ?_, ?_, ?_⟩
      · rw [hres]
        exact (List.perm_insertionSort valueLeP _).nodup_iff.mpr
          (nodup_uniqueAux _ _)
      · rw [hres]
        exact List.sorted_insertionSort valueLeP _
      · intro v
        rw [hres]
        unfold sortVals
        rw [(List.perm_insertionSort valueLeP _).mem_iff]
        unfold uniqueVals
        rw [mem_uniqueAux]
        simp

/-- Claim C10 witness: the sorted-distinct facts at a concrete session. -/
theorem available_contracts_spec_witness :
    get_available_contracts [("legacy_fut",
        ⟨[("Market", [Value.str "B", Value.str "A", Value.str "B"])]⟩)]
      "legacy_fut"
      = sortVals (uniqueVals (getColVals
          ⟨[("Market", [Value.str "B", Value.str "A", Value.str "B"])]⟩
          "Market")) ∧
    (get_available_contracts [("legacy_fut",
        ⟨[("Market", [Value.str "B", Value.str "A", Value.str "B"])]⟩)]
      "legacy_fut").Nodup ∧
    (get_available_contracts [("legacy_fut",
        ⟨[("Market", [Value.str "B", Value.str "A", Value.str "B"])]⟩)]
      "legacy_fut").Pairwise valueLeP ∧
    (∀ v, v ∈ get_available_contracts [("legacy_fut",
        ⟨[("Market", [Value.str "B", Value.str "A", Value.str "B"])]⟩)]
      "legacy_fut" ↔ v ∈ getColVals
          ⟨[("Market", [Value.str "B", Value.str "A", Value.str "B"])]⟩
          "Market") :=
  ((available_contracts_spec [("legacy_fut",
      ⟨[("Market", [Value.str "B", Value.str "A", Value.str "B"])]⟩)]
    "legacy_fut"
    ⟨[("Market", [Value.str "B", Value.str "A", Value.str "B"])]⟩
    "Market").2 (by rfl)).2.2 (by rfl) (by rfl)
